import Mathlib

/-!
Verification of the `ProcessGameState` analytics class (src/Class.py) against its
natural-language specification.

The pandas dataframe is embedded as a list of row records.  Machine floats
(`seconds`, coordinates) are embedded as `Rat`; the claims under study concern
which values are selected, combined or excluded, never float rounding.
The one pandas-specific result that matters — when every per-round result is
`None` (or there is no group at all), `groupby.apply` returns an empty frame
(pandas GH9684) and `.mean()` over it yields an empty `Series` instead of a
number — is embedded as an explicit constructor (`TimerResult.emptySeries`) so
that statements about it are expressible.
A Python exception escaping a query is embedded likewise (`TimerResult.err`,
`RoundResult.indexError`, `Except.error`).
-/

/-- One inventory item record.  `weapon_class = none` embeds an item record in
which the `weapon_class` key is missing (Python would raise `KeyError` on
`item['weapon_class']`). -/
structure Item where
  weapon_class : Option String
  deriving DecidableEq

/-- One raw row of the parquet frame table, with the columns the program reads.
`inventory = none` embeds a null inventory cell. -/
structure RawRow where
  round_num : Nat
  tick : Int
  seconds : Rat
  player : String
  team : String
  side : String
  x : Rat
  y : Rat
  z : Rat
  area_name : String
  is_alive : Bool
  inventory : Option (List Item)
  deriving DecidableEq

/-- An annotated row: the raw columns plus the derived columns added by
`_preprocess` (`is_inside`, `weapon_classes`) and by `averageTimer`
(`has_target_weapons`; `none` embeds the column not existing yet, as is the
case until the first `averageTimer` call). -/
structure Row extends RawRow where
  is_inside : Bool
  weapon_classes : List String
  has_target_weapons : Option Bool
  deriving DecidableEq

/-- The mutable object state: `self.df`, the shared frame table.
(`self.area` and `self.z_range` are stored by `__init__` but only read during
`_preprocess`, so they are not part of the query-relevant state.) -/
structure PGState where
  df : List Row
  deriving DecidableEq

/-- Modelled from the spec: the polygon containment test is delegated to the
external `matplotlib.path.Path.contains_point`, which the spec (section 4.1)
describes as standard even-odd ray casting.  `edgeCrosses` tests whether a
horizontal ray cast from the point towards +x crosses the edge from
`(x1, y1)` to `(x2, y2)`. -/
def edgeCrosses (px py x1 y1 x2 y2 : Rat) : Bool :=
  (decide (py < y1) != decide (py < y2)) &&
    decide (px < x1 + (py - y1) * (x2 - x1) / (y2 - y1))

/-- The closed edge list of a polygon given by its ordered vertex list. -/
def polygonEdges : List (Rat × Rat) → List ((Rat × Rat) × (Rat × Rat))
  | [] => []
  | v :: vs => (v :: vs).zip (vs ++ [v])

/-- Modelled from the spec: even-odd ray casting — the point is inside iff the
number of edge crossings is odd (spec section 4.1; the implementation calls the
external `matplotlib` path utility). -/
def contains_point (verts : List (Rat × Rat)) (p : Rat × Rat) : Bool :=
  (polygonEdges verts).foldl
    (fun acc e => acc != edgeCrosses p.1 p.2 e.1.1 e.1.2 e.2.1 e.2.2) false

/-- `is_inside_polygon` (src/Class.py lines 54-59): 2D containment of `(x, y)`
conjoined with the inclusive z-range test. -/
def is_inside_polygon (vertices : List (Rat × Rat)) (z_range : Rat × Rat)
    (row : RawRow) : Bool :=
  contains_point vertices (row.x, row.y) &&
    decide (z_range.1 ≤ row.z) && decide (row.z ≤ z_range.2)

/-- The extraction `[item['weapon_class'] for item in x]` (src/Class.py line 64):
the comprehension raises `KeyError` at the first item record missing the
`weapon_class` field. -/
def extractWeaponClassesList : List Item → Except String (List String)
  | [] => Except.ok []
  | it :: its =>
    match it.weapon_class with
    | none => Except.error "KeyError: weapon_class"
    | some w =>
      match extractWeaponClassesList its with
      | Except.error e => Except.error e
      | Except.ok ws => Except.ok (w :: ws)

/-- The full lambda of src/Class.py line 64:
`[item['weapon_class'] for item in x] if x is not None else []`. -/
def extractWeaponClasses (inventory : Option (List Item)) :
    Except String (List String) :=
  match inventory with
  | none => Except.ok []
  | some items => extractWeaponClassesList items

/-- Annotation of one row by `_preprocess` (src/Class.py lines 46-65): derive
`is_inside` and `weapon_classes`; the `has_target_weapons` column does not
exist yet.  An extraction failure propagates. -/
def annotateRow (vertices : List (Rat × Rat)) (z_range : Rat × Rat)
    (raw : RawRow) : Except String Row :=
  match extractWeaponClasses raw.inventory with
  | Except.error e => Except.error e
  | Except.ok wc =>
      Except.ok { toRawRow := raw,
                  is_inside := is_inside_polygon vertices z_range raw,
                  weapon_classes := wc,
                  has_target_weapons := none }

/-- `_preprocess` over the whole table; the first failing row aborts. -/
def preprocessRows (vertices : List (Rat × Rat)) (z_range : Rat × Rat) :
    List RawRow → Except String (List Row)
  | [] => Except.ok []
  | raw :: raws =>
    match annotateRow vertices z_range raw with
    | Except.error e => Except.error e
    | Except.ok r =>
      match preprocessRows vertices z_range raws with
      | Except.error e => Except.error e
      | Except.ok rs => Except.ok (r :: rs)

/-- `ProcessGameState.__init__` (src/Class.py lines 28-44): load the table,
store the configuration, run `_preprocess`.  Note: the constructor performs no
validation of `vertices` or `z_range`; the only failure path is a
data-integrity failure inside `_preprocess`. -/
def mkProcessGameState (rows : List RawRow) (vertices : List (Rat × Rat))
    (z_range : Rat × Rat) : Except String PGState :=
  match preprocessRows vertices z_range rows with
  | Except.error e => Except.error e
  | Except.ok df => Except.ok ⟨df⟩

/-- `pandas.drop_duplicates(subset=key)` with the default `keep='first'`:
retain a row iff its key has not been seen earlier. -/
def dedupGo {K : Type} [DecidableEq K] (key : Row → K) (seen : List K) :
    List Row → List Row
  | [] => []
  | r :: rs =>
    if key r ∈ seen then dedupGo key seen rs
    else r :: dedupGo key (key r :: seen) rs

/-- First-occurrence deduplication by an arbitrary key. -/
def dedupByKey {K : Type} [DecidableEq K] (key : Row → K) (l : List Row) :
    List Row :=
  dedupGo key [] l

/-- The row filter of `enterChokePoint` (src/Class.py line 75). -/
def chokeFilter (team side : String) (r : Row) : Bool :=
  (r.is_inside == true) && (r.team == team) && (r.side == side)

/-- The deduplication key of `enterChokePoint` (src/Class.py line 78). -/
def chokeKey (r : Row) : Nat × String :=
  (r.round_num, r.player)

/-- `enterChokePoint` (src/Class.py lines 70-81): filter by membership, team
and side, then drop duplicate (`round_num`, `player`) pairs keeping the first.
It reads `self.df` and returns a fresh subset; the state is unchanged. -/
def enterChokePoint (st : PGState) (team side : String) :
    PGState × List Row :=
  (st, dedupByKey chokeKey (st.df.filter (chokeFilter team side)))

/-- The lambda of src/Class.py line 89:
`any(weapon in x for weapon in target_weapons)`. -/
def hasTargetWeaponsVal (target_weapons : List String)
    (weapon_classes : List String) : Bool :=
  target_weapons.any (fun w => weapon_classes.contains w)

/-- The column assignment of src/Class.py line 89 applied to one row: only the
`has_target_weapons` column changes. -/
def setHasTargetWeapons (target_weapons : List String) (r : Row) : Row :=
  { r with
    has_target_weapons := some (hasTargetWeaponsVal target_weapons r.weapon_classes) }

/-- The row filter of `averageTimer` (src/Class.py line 92). -/
def timerFilter (team side area : String) (r : Row) : Bool :=
  (r.team == team) && (r.side == side) && (r.area_name == area) &&
    (r.has_target_weapons == some true)

/-- Stable insertion into a tick-sorted list (earlier rows stay ahead of
later rows with an equal tick). -/
def insertByTick (r : Row) : List Row → List Row
  | [] => [r]
  | q :: qs =>
    if decide (r.tick ≤ q.tick) then r :: q :: qs else q :: insertByTick r qs

/-- `sort_values('tick')` (src/Class.py line 93), embedded as a stable sort:
pandas leaves the order of tick ties unspecified, and the spec (section 9)
asks for the deterministic stable rule; no claim below depends on tie order. -/
def sortByTick : List Row → List Row
  | [] => []
  | r :: rs => insertByTick r (sortByTick rs)

/-- Ascending insertion for the groupby key order. -/
def insertNat (n : Nat) : List Nat → List Nat
  | [] => [n]
  | m :: ms => if n ≤ m then n :: m :: ms else m :: insertNat n ms

/-- Ascending sort of the groupby keys. -/
def sortNats : List Nat → List Nat
  | [] => []
  | n :: ns => insertNat n (sortNats ns)

/-- First-occurrence deduplication of a key list. -/
def dedupNats : List Nat → List Nat
  | [] => []
  | n :: ns =>
    if n ∈ dedupNats ns then dedupNats ns else n :: dedupNats ns

/-- The distinct `round_num` keys of `groupby('round_num')` in ascending key
order (the pandas default `sort=True`). -/
def roundKeys (l : List Row) : List Nat :=
  sortNats (dedupNats (l.map (fun r => r.round_num)))

/-- The rows of one groupby group, in the (tick-sorted) filtered order. -/
def roundGroup (l : List Row) (k : Nat) : List Row :=
  l.filter (fun r => r.round_num == k)

/-- Outcome of the per-round helper of `averageTimer`. -/
inductive RoundResult where
  /-- The helper returned `None`: the round contributes no value. -/
  | excluded
  /-- The helper returned a `seconds` value. -/
  | value (s : Rat)
  /-- `.at[1, 'seconds']` raised (`KeyError`): the sequence has no position 1. -/
  | indexError
  deriving DecidableEq

/-- Whether a round raised the indexing error. -/
def RoundResult.isIndexError : RoundResult → Bool
  | RoundResult.indexError => true
  | _ => false

/-- The contributed `seconds` value, if any. -/
def RoundResult.valueOf : RoundResult → Option Rat
  | RoundResult.value s => some s
  | _ => none

/-- `get_tick_two_players` (src/Class.py lines 96-101): deduplicate the group
by `player` (first occurrence after the tick sort), and when the number of
distinct players reaches `min_players`, read `.at[1, 'seconds']` — the row at
fixed position 1 (0-indexed), which raises when the sequence has fewer than
two entries. -/
def get_tick_two_players (min_players : Int) (group : List Row) : RoundResult :=
  let player_entries := dedupByKey (fun r => r.player) group
  if min_players ≤ (player_entries.length : Int) then
    match player_entries[1]? with
    | some r => RoundResult.value r.seconds
    | none => RoundResult.indexError
  else RoundResult.excluded

/-- The threshold test of `get_tick_two_players`
(`len(player_entries) >= min_players`). -/
def qualifies (min_players : Int) (group : List Row) : Bool :=
  decide (min_players ≤ ((dedupByKey (fun r => r.player) group).length : Int))

/-- The filtered, tick-sorted table of `averageTimer` (src/Class.py lines
89-93), computed after the full-table `has_target_weapons` assignment. -/
def timerFiltered (st : PGState) (target_weapons : List String)
    (team side area : String) : List Row :=
  sortByTick
    ((st.df.map (setHasTargetWeapons target_weapons)).filter
      (timerFilter team side area))

/-- `groupby('round_num').apply(get_tick_two_players)` (src/Class.py line 104):
one `RoundResult` per round key, in key order. -/
def perRoundResults (min_players : Int) (filtered : List Row) :
    List RoundResult :=
  (roundKeys filtered).map
    (fun k => get_tick_two_players min_players (roundGroup filtered k))

/-- Outcome of a full `averageTimer` call. -/
inductive TimerResult where
  /-- The `KeyError` of the per-round helper escaped the call. -/
  | err
  /-- When every per-round result is `None`, or there is no group at all,
  `groupby.apply` returns an empty frame (pandas GH9684) and `.mean()` over it
  yields an empty `Series`, which flows out in place of the documented float
  with no accompanying label or signal. -/
  | emptySeries
  /-- A numeric mean. -/
  | val (r : Rat)
  deriving DecidableEq

/-- The arithmetic mean, `Series.mean` over the retained values. -/
def meanRat (l : List Rat) : Rat :=
  l.sum / (l.length : Rat)

/-- `.apply(...).mean()` (src/Class.py line 104): an escaping exception aborts
the call; otherwise the `None` results are dropped (in the mixed case they
become `NaN`s that `.mean()` skips) and the mean is taken over the remaining
values; when no value remains — all results `None`, or no group at all —
`groupby.apply` has produced an empty frame (pandas GH9684) and `.mean()`
returns an empty `Series` instead of a number. -/
def aggregate (results : List RoundResult) : TimerResult :=
  if results.any RoundResult.isIndexError then TimerResult.err
  else
    let vals := results.filterMap RoundResult.valueOf
    if vals.isEmpty then TimerResult.emptySeries else TimerResult.val (meanRat vals)

/-- `averageTimer` (src/Class.py lines 84-106).  The full-table
`has_target_weapons` assignment (line 89) mutates `self.df`; the returned pair
is (the state after that mutation, the returned value). -/
def averageTimer (st : PGState) (team side : String)
    (target_weapons : List String) (area : String) (min_players : Int) :
    PGState × TimerResult :=
  (⟨st.df.map (setHasTargetWeapons target_weapons)⟩,
    aggregate (perRoundResults min_players
      (timerFiltered st target_weapons team side area)))

/-- The values actually averaged by an `averageTimer` call. -/
def collectedValues (st : PGState) (target_weapons : List String)
    (team side area : String) (min_players : Int) : List Rat :=
  (perRoundResults min_players
    (timerFiltered st target_weapons team side area)).filterMap
    RoundResult.valueOf

/-- The round keys whose groups meet the `min_players` threshold. -/
def qualifyingRounds (st : PGState) (target_weapons : List String)
    (team side area : String) (min_players : Int) : List Nat :=
  (roundKeys (timerFiltered st target_weapons team side area)).filter
    (fun k =>
      qualifies min_players
        (roundGroup (timerFiltered st target_weapons team side area) k))

/-- The row filter of `create_heatmap` (src/Class.py line 116). -/
def heatmapFilter (team side area : String) (r : Row) : Bool :=
  (r.team == team) && (r.side == side) && (r.area_name == area) &&
    (r.is_alive == true)

/-- `create_heatmap` (src/Class.py lines 109-122): filter, then hand the
`(x, y)` samples of the filtered rows to the external rendering sink
(`sns.jointplot`).  The state is unchanged; the second component is the sample
collection handed off. -/
def create_heatmap (st : PGState) (team side area : String) :
    PGState × List (Rat × Rat) :=
  (st, (st.df.filter (heatmapFilter team side area)).map (fun r => (r.x, r.y)))

/-- A builder for concrete annotated rows (the concrete-table instantiations
below fix the coordinate columns, which the queries at issue never read). -/
def mkRow (round_num : Nat) (tick : Int) (seconds : Rat) (player : String)
    (team side area_name : String) (weapon_classes : List String)
    (inside : Bool) : Row :=
  { round_num := round_num, tick := tick, seconds := seconds, player := player,
    team := team, side := side, x := 0, y := 0, z := 0, area_name := area_name,
    is_alive := true, inventory := some [],
    is_inside := inside, weapon_classes := weapon_classes,
    has_target_weapons := none }

/-- Round 1, distinct players P1/P2/P3 in tick order, seconds 10, 12, 15. -/
def exRowA : Row := mkRow 1 1 10 "P1" "Team2" "T" "BombsiteB" ["Rifle"] true

/-- Second distinct qualifying player of the example round. -/
def exRowB : Row := mkRow 1 2 12 "P2" "Team2" "T" "BombsiteB" ["Rifle"] true

/-- Third distinct qualifying player of the example round. -/
def exRowC : Row := mkRow 1 3 15 "P3" "Team2" "T" "BombsiteB" ["SMG"] true

/-- A table with one round holding three distinct qualifying players. -/
def exSt1 : PGState := ⟨[exRowA, exRowB, exRowC]⟩

/-- A table with one round holding a single qualifying player. -/
def exSt3 : PGState := ⟨[exRowA]⟩

/-- Chokepoint example: P1 appears twice in round 16 (same dedup key). -/
def exRowD : Row := mkRow 16 1 20 "P1" "Team2" "T" "Choke" [] true

/-- The redundant second appearance of P1 in round 16. -/
def exRowE : Row := mkRow 16 2 21 "P1" "Team2" "T" "Choke" [] true

/-- A second distinct player of round 16. -/
def exRowF : Row := mkRow 16 3 22 "P2" "Team2" "T" "Choke" [] true

/-- A table in which one (round, player) pair occurs twice inside the region. -/
def exSt4 : PGState := ⟨[exRowD, exRowE, exRowF]⟩

/-- A raw input row with a well-formed one-item inventory. -/
def exRaw6a : RawRow :=
  { round_num := 1, tick := 1, seconds := 10, player := "P1", team := "Team2",
    side := "T", x := 0, y := 0, z := 0, area_name := "BombsiteB",
    is_alive := true, inventory := some [{ weapon_class := some "Rifle" }] }

/-- A second raw input row, distinct player, later tick. -/
def exRaw6b : RawRow :=
  { exRaw6a with tick := 2, seconds := 12, player := "P2" }

/-- A two-row raw table with well-formed inventories. -/
def exRaws6 : List RawRow := [exRaw6a, exRaw6b]

/-- The state built from `exRaws6` with a 2-vertex polygon and an inverted
z-range — a configuration the spec says must be rejected. -/
def exSt6 : PGState :=
  match mkProcessGameState exRaws6 [(0, 0), (1, 1)] (5, 3) with
  | Except.ok s => s
  | Except.error _ => ⟨[]⟩

/-- A raw row whose z-coordinate lies far outside the example z-range. -/
def exRaw8 : RawRow := { exRaw6a with x := 5, y := 5, z := 50 }

/-! ## Deduplication lemmas -/

theorem dedupGo_key_not_seen {K : Type} [DecidableEq K] (key : Row → K) :
    ∀ (seen : List K) (l : List Row) (r : Row),
      r ∈ dedupGo key seen l → key r ∉ seen := by
  intro seen l
  induction l generalizing seen with
  | nil => intro r h; simp [dedupGo] at h
  | cons q qs ih =>
    intro r h
    by_cases hq : key q ∈ seen
    · rw [dedupGo, if_pos hq] at h
      exact ih seen r h
    · rw [dedupGo, if_neg hq] at h
      rcases List.mem_cons.mp h with rfl | h2
      · exact hq
      · intro hs
        exact ih (key q :: seen) r h2 (List.mem_cons_of_mem _ hs)

theorem dedupGo_pairwise {K : Type} [DecidableEq K] (key : Row → K) :
    ∀ (seen : List K) (l : List Row),
      List.Pairwise (fun a b => key a ≠ key b) (dedupGo key seen l) := by
  intro seen l
  induction l generalizing seen with
  | nil => exact List.Pairwise.nil
  | cons q qs ih =>
    by_cases hq : key q ∈ seen
    · rw [dedupGo, if_pos hq]; exact ih seen
    · rw [dedupGo, if_neg hq]
      refine List.Pairwise.cons ?_ (ih (key q :: seen))
      intro b hb heq
      have := dedupGo_key_not_seen key (key q :: seen) qs b hb
      exact this (heq ▸ List.mem_cons_self _ _)

theorem dedupGo_first_occurrence {K : Type} [DecidableEq K] (key : Row → K) :
    ∀ (seen : List K) (l : List Row) (r : Row), r ∈ dedupGo key seen l →
      (l.filter (fun q => decide (key q = key r))).head? = some r := by
  intro seen l
  induction l generalizing seen with
  | nil => intro r h; simp [dedupGo] at h
  | cons q qs ih =>
    intro r h
    by_cases hq : key q ∈ seen
    · rw [dedupGo, if_pos hq] at h
      have hne : ¬ (key q = key r) := by
        intro he
        exact dedupGo_key_not_seen key seen qs r h (he ▸ hq)
      rw [List.filter_cons, if_neg (by simpa using hne)]
      exact ih seen r h
    · rw [dedupGo, if_neg hq] at h
      rcases List.mem_cons.mp h with rfl | h2
      · rw [List.filter_cons, if_pos (by simp)]
        rfl
      · have hns := dedupGo_key_not_seen key (key q :: seen) qs r h2
        have hne : ¬ (key q = key r) := by
          intro he
          exact hns (he ▸ List.mem_cons_self _ _)
        rw [List.filter_cons, if_neg (by simpa using hne)]
        exact ih (key q :: seen) r h2

/-- Claim C4: the Chokepoint-Usage Query never returns two rows with the same
(`round_num`, `player`) pair, and each retained row is the first occurrence,
in original row order, among the rows matching the `is_inside`/team/side
filter. -/
theorem enterChokePoint_dedup (st : PGState) (team side : String) :
    List.Pairwise (fun a b => chokeKey a ≠ chokeKey b)
      (enterChokePoint st team side).2 ∧
    ∀ r ∈ (enterChokePoint st team side).2,
      ((st.df.filter (chokeFilter team side)).filter
        (fun q => decide (chokeKey q = chokeKey r))).head? = some r := by
  constructor
  · exact dedupGo_pairwise chokeKey [] _
  · intro r hr
    exact dedupGo_first_occurrence chokeKey [] _ r hr

/-- Witness for claim C4 at a concrete table in which player P1 enters the
region twice in round 16: the retained row for key (16, P1) is its first
matching occurrence. -/
theorem enterChokePoint_dedup_witness :
    ((exSt4.df.filter (chokeFilter "Team2" "T")).filter
      (fun q => decide (chokeKey q = chokeKey exRowD))).head? = some exRowD :=
  (enterChokePoint_dedup exSt4 "Team2" "T").2 exRowD (by decide)

/-! ## Staging-timer lemmas -/

theorem meanRat_singleton (s : Rat) : meanRat [s] = s := by
  simp [meanRat]

theorem qualifies_false_excluded (mp : Int) (g : List Row)
    (h : qualifies mp g = false) :
    get_tick_two_players mp g = RoundResult.excluded := by
  have h2 : ¬ (mp ≤ ((dedupByKey (fun r => r.player) g).length : Int)) :=
    of_decide_eq_false h
  simp only [get_tick_two_players]
  rw [if_neg h2]

theorem get_tick_two_players_single (mp : Int) (g : List Row)
    (hmp : mp ≤ 1)
    (h : (dedupByKey (fun r => r.player) g).length = 1) :
    get_tick_two_players mp g = RoundResult.indexError := by
  simp only [get_tick_two_players]
  rw [if_pos (by rw [h]; exact_mod_cast hmp),
    List.getElem?_eq_none (by rw [h])]

/-- Claim C1 (failing-input evaluation): in a round whose three distinct
qualifying players have seconds 10, 12, 15 in tick order, `averageTimer` with
`min_players = 3` returns 12 — the seconds at the hardcoded position 1
(the 2nd distinct player) — not 15, the 3rd (`min_players`-th) player's
seconds that the specification requires. -/
theorem averageTimer_hardcoded_index_eval :
    (averageTimer exSt1 "Team2" "T" ["Rifle", "SMG"] "BombsiteB" 3).2
        = TimerResult.val 12 ∧
    (dedupByKey (fun r => r.player)
      (roundGroup (timerFiltered exSt1 ["Rifle", "SMG"] "Team2" "T" "BombsiteB")
        1)).map (fun r => r.seconds) = [10, 12, 15] := by
  constructor
  · have h1 : perRoundResults 3
        (timerFiltered exSt1 ["Rifle", "SMG"] "Team2" "T" "BombsiteB")
        = [RoundResult.value 12] := by decide
    show aggregate (perRoundResults 3
      (timerFiltered exSt1 ["Rifle", "SMG"] "Team2" "T" "BombsiteB"))
      = TimerResult.val 12
    rw [h1]
    show TimerResult.val (meanRat [12]) = TimerResult.val 12
    rw [meanRat_singleton]
  · decide

/-- Claim C10: with `min_players = 1`, a round whose filtered group contains
exactly one distinct qualifying player makes the per-round helper read
position 1 of a one-element sequence, so that round yields the indexing
error and the whole `averageTimer` call aborts with it. -/
theorem averageTimer_partial_at_min_players_one (st : PGState)
    (team side : String) (tw : List String) (area : String) (k : Nat)
    (hk : k ∈ roundKeys (timerFiltered st tw team side area))
    (h1 : (dedupByKey (fun r => r.player)
        (roundGroup (timerFiltered st tw team side area) k)).length = 1) :
    get_tick_two_players 1 (roundGroup (timerFiltered st tw team side area) k)
        = RoundResult.indexError ∧
    (averageTimer st team side tw area 1).2 = TimerResult.err := by
  have herr := get_tick_two_players_single 1 _ le_rfl h1
  refine ⟨herr, ?_⟩
  show aggregate (perRoundResults 1 (timerFiltered st tw team side area))
    = TimerResult.err
  have hany : (perRoundResults 1
      (timerFiltered st tw team side area)).any RoundResult.isIndexError
      = true := by
    apply List.any_eq_true.mpr
    refine ⟨get_tick_two_players 1
      (roundGroup (timerFiltered st tw team side area) k), ?_, ?_⟩
    · exact List.mem_map_of_mem _ hk
    · rw [herr]
      rfl
  simp [aggregate, hany]

/-- Witness for claim C10 at a concrete one-player table. -/
theorem averageTimer_partial_at_min_players_one_witness :
    (averageTimer exSt3 "Team2" "T" ["Rifle"] "BombsiteB" 1).2
      = TimerResult.err :=
  (averageTimer_partial_at_min_players_one exSt3 "Team2" "T" ["Rifle"]
    "BombsiteB" 1 (by decide) (by decide)).2

theorem filterMap_map_filter {α : Type} (keys : List α) (f : α → RoundResult)
    (p : α → Bool) (h : ∀ k, p k = false → (f k).valueOf = none) :
    (keys.map f).filterMap RoundResult.valueOf
      = (keys.filter p).filterMap (fun k => (f k).valueOf) := by
  induction keys with
  | nil => rfl
  | cons k ks ih =>
    rw [List.map_cons, List.filterMap_cons, List.filter_cons]
    cases hp : p k
    · rw [h k hp, if_neg (by simp)]
      exact ih
    · rw [if_pos rfl, List.filterMap_cons]
      cases hv : (f k).valueOf with
      | none => exact ih
      | some v => exact congrArg (fun l => v :: l) ih

theorem filterMap_length_all_isSome {α β : Type} (l : List α)
    (g : α → Option β) (h : ∀ k ∈ l, (g k).isSome = true) :
    (l.filterMap g).length = l.length := by
  induction l with
  | nil => rfl
  | cons k ks ih =>
    rcases Option.isSome_iff_exists.mp (h k (List.mem_cons_self _ _)) with
      ⟨v, hv⟩
    rw [List.filterMap_cons, hv, List.length_cons, List.length_cons,
      ih (fun x hx => h x (List.mem_cons_of_mem _ hx))]

theorem aggregate_ne_err_any_false (results : List RoundResult)
    (h : aggregate results ≠ TimerResult.err) :
    results.any RoundResult.isIndexError = false := by
  by_cases hany : results.any RoundResult.isIndexError = true
  · exact absurd (by simp [aggregate, hany]) h
  · simpa using hany

/-- Claim C2: a round with fewer than `min_players` distinct qualifying
players contributes no value to the aggregate — the averaged collection is
drawn from exactly the qualifying rounds (one value each when no indexing
error aborts the call), and the mean divides by the number of retained
values, not the number of rounds. -/
theorem averageTimer_excludes_short_rounds (st : PGState) (team side : String)
    (tw : List String) (area : String) (mp : Int) :
    collectedValues st tw team side area mp
      = (qualifyingRounds st tw team side area mp).filterMap
          (fun k => (get_tick_two_players mp
            (roundGroup (timerFiltered st tw team side area) k)).valueOf) ∧
    ((averageTimer st team side tw area mp).2 ≠ TimerResult.err →
      (averageTimer st team side tw area mp).2
        = (if (collectedValues st tw team side area mp).isEmpty
           then TimerResult.emptySeries
           else TimerResult.val
             (meanRat (collectedValues st tw team side area mp)))) ∧
    ((averageTimer st team side tw area mp).2 ≠ TimerResult.err →
      (collectedValues st tw team side area mp).length
        = (qualifyingRounds st tw team side area mp).length) := by
  have hpart1 : collectedValues st tw team side area mp
      = (qualifyingRounds st tw team side area mp).filterMap
          (fun k => (get_tick_two_players mp
            (roundGroup (timerFiltered st tw team side area) k)).valueOf) := by
    simp only [collectedValues, perRoundResults, qualifyingRounds]
    exact filterMap_map_filter _ _ _
      (fun k hk => by rw [qualifies_false_excluded mp _ hk]; rfl)
  refine ⟨hpart1, ?_, ?_⟩
  · intro hne
    have hne2 : aggregate (perRoundResults mp
        (timerFiltered st tw team side area)) ≠ TimerResult.err := hne
    have hany := aggregate_ne_err_any_false _ hne2
    show aggregate (perRoundResults mp (timerFiltered st tw team side area))
      = _
    simp only [aggregate, hany, Bool.false_eq_true, if_false, collectedValues]
  · intro hne
    have hne2 : aggregate (perRoundResults mp
        (timerFiltered st tw team side area)) ≠ TimerResult.err := hne
    have hany := aggregate_ne_err_any_false _ hne2
    rw [hpart1]
    apply filterMap_length_all_isSome
    intro k hk
    simp only [qualifyingRounds] at hk
    have hkk := List.mem_filter.mp hk
    have hmem : get_tick_two_players mp
        (roundGroup (timerFiltered st tw team side area) k)
        ∈ perRoundResults mp (timerFiltered st tw team side area) := by
      simp only [perRoundResults]
      exact List.mem_map_of_mem _ hkk.1
    have hnotidx := List.any_eq_false.mp hany _ hmem
    have hq : mp ≤ ((dedupByKey (fun r => r.player)
        (roundGroup (timerFiltered st tw team side area) k)).length : Int) :=
      of_decide_eq_true hkk.2
    simp only [get_tick_two_players] at hnotidx ⊢
    rw [if_pos hq] at hnotidx ⊢
    cases hv : (dedupByKey (fun r => r.player)
        (roundGroup (timerFiltered st tw team side area) k))[1]?
    · rw [hv] at hnotidx
      simp [RoundResult.isIndexError] at hnotidx
    · rfl

/-- Witness for claim C2 at a concrete table: with the threshold met in the
single round, the retained-value count equals the qualifying-round count. -/
theorem averageTimer_excludes_short_rounds_witness :
    (collectedValues exSt1 ["Rifle", "SMG"] "Team2" "T" "BombsiteB" 3).length
      = (qualifyingRounds exSt1 ["Rifle", "SMG"] "Team2" "T" "BombsiteB"
          3).length :=
  (averageTimer_excludes_short_rounds exSt1 "Team2" "T" ["Rifle", "SMG"]
    "BombsiteB" 3).2.2 (by decide)

/-- Claim C5: `enterChokePoint` and `create_heatmap` leave the shared frame
unchanged; `averageTimer` changes exactly the `has_target_weapons` column,
recomputing it over the full table from its own `target_weapons` argument
(every other column of every row is untouched), and a second call with a
different target set overwrites that one column again. -/
theorem queries_state_effect (st : PGState) (team side area : String)
    (tw tw2 : List String) (mp mp2 : Int) :
    (enterChokePoint st team side).1 = st ∧
    (create_heatmap st team side area).1 = st ∧
    (averageTimer st team side tw area mp).1.df
      = st.df.map (setHasTargetWeapons tw) ∧
    (∀ r : Row,
      (setHasTargetWeapons tw r).toRawRow = r.toRawRow ∧
      (setHasTargetWeapons tw r).is_inside = r.is_inside ∧
      (setHasTargetWeapons tw r).weapon_classes = r.weapon_classes ∧
      (setHasTargetWeapons tw r).has_target_weapons
        = some (hasTargetWeaponsVal tw r.weapon_classes)) ∧
    (averageTimer (averageTimer st team side tw area mp).1 team side tw2 area
        mp2).1.df = st.df.map (setHasTargetWeapons tw2) := by
  refine ⟨rfl, rfl, rfl, fun r => ⟨rfl, rfl, rfl, rfl⟩, ?_⟩
  show (st.df.map (setHasTargetWeapons tw)).map (setHasTargetWeapons tw2)
    = st.df.map (setHasTargetWeapons tw2)
  rw [List.map_map]
  have hcomp : setHasTargetWeapons tw2 ∘ setHasTargetWeapons tw
      = setHasTargetWeapons tw2 := funext fun r => rfl
  rw [hcomp]

/-- Claim C8: `is_inside` is the conjunction of the 2D polygon containment of
`(x, y)` with the inclusive z-range test, so a z outside `[zMin, zMax]` makes
it false regardless of `(x, y)`. -/
theorem is_inside_polygon_conjunction (vertices : List (Rat × Rat))
    (z_range : Rat × Rat) (raw : RawRow) :
    is_inside_polygon vertices z_range raw
      = (contains_point vertices (raw.x, raw.y) &&
          (decide (z_range.1 ≤ raw.z) && decide (raw.z ≤ z_range.2))) ∧
    ((raw.z < z_range.1 ∨ z_range.2 < raw.z) →
      is_inside_polygon vertices z_range raw = false) := by
  constructor
  · rw [is_inside_polygon, Bool.and_assoc]
  · intro h
    rcases h with h | h
    · rw [is_inside_polygon, decide_eq_false (not_le.mpr h)]
      simp
    · rw [is_inside_polygon, decide_eq_false (not_le.mpr h)]
      simp

/-- Witness for claim C8: a row at `(5, 5)` — inside the square — with
`z = 50` outside the range `[0, 10]` is not inside. -/
theorem is_inside_polygon_conjunction_witness :
    is_inside_polygon [(0, 0), (10, 0), (10, 10), (0, 10)] (0, 10) exRaw8
      = false :=
  (is_inside_polygon_conjunction [(0, 0), (10, 0), (10, 10), (0, 10)] (0, 10)
    exRaw8).2 (Or.inr (by decide))

/-- Claim C9 (counterexample): with no row matching the Density Query's
filter, `create_heatmap` completes normally and hands the empty sample
collection to the rendering sink, with no rejection and no flag. -/
theorem create_heatmap_empty_cex :
    create_heatmap exSt1 "Team2" "CT" "BombsiteB" = (exSt1, []) := by decide

/-- Claim C9 (amended): `create_heatmap` hands exactly the filtered rows'
`(x, y)` pairs to the rendering sink, unconditionally — when the filter
selects no rows the sink receives the empty collection rather than the query
rejecting or flagging it. -/
theorem create_heatmap_passes_samples_through (st : PGState)
    (team side area : String) :
    (∀ p : Rat × Rat, p ∈ (create_heatmap st team side area).2 ↔
      ∃ r ∈ st.df, heatmapFilter team side area r = true ∧ p = (r.x, r.y)) ∧
    (st.df.filter (heatmapFilter team side area) = [] →
      (create_heatmap st team side area).2 = []) := by
  constructor
  · intro p
    simp only [create_heatmap, List.mem_map, List.mem_filter]
    constructor
    · rintro ⟨r, ⟨hr, hf⟩, rfl⟩
      exact ⟨r, hr, hf, rfl⟩
    · rintro ⟨r, hr, hf, rfl⟩
      exact ⟨r, ⟨hr, hf⟩, rfl⟩
  · intro h
    show (st.df.filter (heatmapFilter team side area)).map
      (fun r => (r.x, r.y)) = []
    rw [h]
    rfl

/-- Witness for the amended claim C9 at a concrete table with no CT rows. -/
theorem create_heatmap_passes_samples_through_witness :
    (create_heatmap exSt4 "Team2" "CT" "BombsiteB").2 = [] :=
  (create_heatmap_passes_samples_through exSt4 "Team2" "CT" "BombsiteB").2
    (by decide)

/-! ## Preprocessing lemmas -/

theorem Except_isOk_ok {ε α : Type} (a : α) :
    (Except.ok a : Except ε α).isOk = true := rfl

theorem extractWeaponClassesList_missing_field (items : List Item)
    (h : ∃ it ∈ items, it.weapon_class = none) :
    (extractWeaponClassesList items).isOk = false := by
  induction items with
  | nil => simp at h
  | cons it its ih =>
    rcases h with ⟨a, ha, hnone⟩
    rcases List.mem_cons.mp ha with rfl | hmem
    · rw [extractWeaponClassesList, hnone]
      rfl
    · cases hw : it.weapon_class with
      | none =>
        rw [extractWeaponClassesList, hw]
        rfl
      | some w =>
        have hrec := ih ⟨a, hmem, hnone⟩
        rw [extractWeaponClassesList, hw]
        cases hx : extractWeaponClassesList its with
        | error e => rfl
        | ok ws =>
          rw [hx, Except_isOk_ok] at hrec
          exact Bool.noConfusion hrec

theorem preprocessRows_missing_field (vertices : List (Rat × Rat))
    (z_range : Rat × Rat) (rows : List RawRow)
    (h : ∃ raw ∈ rows, ∃ items, raw.inventory = some items ∧
      ∃ it ∈ items, it.weapon_class = none) :
    (preprocessRows vertices z_range rows).isOk = false := by
  induction rows with
  | nil => simp at h
  | cons raw raws ih =>
    rcases h with ⟨a, ha, items, hinv, hbad⟩
    rcases List.mem_cons.mp ha with rfl | hmem
    · have hex : (extractWeaponClasses a.inventory).isOk = false := by
        rw [extractWeaponClasses.eq_def, hinv]
        exact extractWeaponClassesList_missing_field items hbad
      rw [preprocessRows, annotateRow]
      cases hx : extractWeaponClasses a.inventory with
      | error e => rfl
      | ok ws =>
        rw [hx, Except_isOk_ok] at hex
        exact Bool.noConfusion hex
    · rw [preprocessRows]
      cases hx : annotateRow vertices z_range raw with
      | error e => rfl
      | ok r =>
        have hrec := ih ⟨a, hmem, items, hinv, hbad⟩
        cases hy : preprocessRows vertices z_range raws with
        | error e => rfl
        | ok rs =>
          rw [hy, Except_isOk_ok] at hrec
          exact Bool.noConfusion hrec

theorem extractWeaponClassesList_all_present (items : List Item)
    (h : ∀ it ∈ items, it.weapon_class ≠ none) :
    ∃ ws, extractWeaponClassesList items = Except.ok ws := by
  induction items with
  | nil => exact ⟨[], rfl⟩
  | cons it its ih =>
    rcases ih (fun x hx => h x (List.mem_cons_of_mem _ hx)) with ⟨ws, hws⟩
    cases hw : it.weapon_class with
    | none => exact absurd hw (h it (List.mem_cons_self _ _))
    | some w =>
      refine ⟨w :: ws, ?_⟩
      rw [extractWeaponClassesList, hw, hws]

theorem extractWeaponClasses_all_present (inv : Option (List Item))
    (h : ∀ it ∈ inv.getD [], it.weapon_class ≠ none) :
    ∃ ws, extractWeaponClasses inv = Except.ok ws := by
  cases inv with
  | none => exact ⟨[], rfl⟩
  | some items => exact extractWeaponClassesList_all_present items h

theorem preprocessRows_all_ok (vertices : List (Rat × Rat))
    (z_range : Rat × Rat) (rows : List RawRow)
    (h : ∀ raw ∈ rows, ∀ it ∈ raw.inventory.getD [],
      it.weapon_class ≠ none) :
    ∃ df, preprocessRows vertices z_range rows = Except.ok df := by
  induction rows with
  | nil => exact ⟨[], rfl⟩
  | cons raw raws ih =>
    rcases extractWeaponClasses_all_present raw.inventory
      (h raw (List.mem_cons_self _ _)) with ⟨ws, hws⟩
    rcases ih (fun x hx => h x (List.mem_cons_of_mem _ hx)) with ⟨df, hdf⟩
    refine ⟨{ toRawRow := raw,
              is_inside := is_inside_polygon vertices z_range raw,
              weapon_classes := ws, has_target_weapons := none } :: df, ?_⟩
    rw [preprocessRows, annotateRow, hws, hdf]

theorem preprocessRows_mem (vertices : List (Rat × Rat))
    (z_range : Rat × Rat) :
    ∀ (rows : List RawRow) (df : List Row),
      preprocessRows vertices z_range rows = Except.ok df →
      ∀ r ∈ df, ∃ raw ∈ rows, annotateRow vertices z_range raw
        = Except.ok r := by
  intro rows
  induction rows with
  | nil =>
    intro df hdf r hr
    rw [preprocessRows] at hdf
    injection hdf with hdf
    rw [← hdf] at hr
    simp at hr
  | cons raw raws ih =>
    intro df hdf r hr
    rw [preprocessRows] at hdf
    cases hx : annotateRow vertices z_range raw with
    | error e => rw [hx] at hdf; cases hdf
    | ok r1 =>
      rw [hx] at hdf
      cases hy : preprocessRows vertices z_range raws with
      | error e => rw [hy] at hdf; cases hdf
      | ok rs =>
        rw [hy] at hdf
        injection hdf with hdf
        rw [← hdf] at hr
        rcases List.mem_cons.mp hr with rfl | hmem
        · exact ⟨raw, List.mem_cons_self _ _, hx⟩
        · rcases ih rs hy r hmem with ⟨raw2, hraw2, hann⟩
          exact ⟨raw2, List.mem_cons_of_mem _ hraw2, hann⟩

theorem annotateRow_is_inside (vertices : List (Rat × Rat))
    (z_range : Rat × Rat) (raw : RawRow) (r : Row)
    (h : annotateRow vertices z_range raw = Except.ok r) :
    r.is_inside = is_inside_polygon vertices z_range raw := by
  rw [annotateRow] at h
  cases hx : extractWeaponClasses raw.inventory with
  | error e => rw [hx] at h; cases h
  | ok wc =>
    rw [hx] at h
    injection h with h
    rw [← h]

theorem is_inside_polygon_inverted_range (vertices : List (Rat × Rat))
    (z_range : Rat × Rat) (h : z_range.2 < z_range.1) (raw : RawRow) :
    is_inside_polygon vertices z_range raw = false := by
  rw [is_inside_polygon]
  rcases le_or_lt z_range.1 raw.z with h1 | h1
  · rw [decide_eq_false (not_le.mpr (lt_of_lt_of_le h h1))]
    simp
  · rw [decide_eq_false (not_le.mpr h1)]
    simp

/-- Claim C7: a present inventory containing an item record without the
`weapon_class` field makes the extraction fail (and construction abort),
never silently defaulting; a null inventory extracts to the empty list. -/
theorem weapon_class_integrity (inv : Option (List Item))
    (rows : List RawRow) (vertices : List (Rat × Rat))
    (z_range : Rat × Rat) :
    extractWeaponClasses none = Except.ok ([] : List String) ∧
    (∀ items, inv = some items → (∃ it ∈ items, it.weapon_class = none) →
      (extractWeaponClasses inv).isOk = false) ∧
    ((∃ raw ∈ rows, ∃ items, raw.inventory = some items ∧
        ∃ it ∈ items, it.weapon_class = none) →
      (mkProcessGameState rows vertices z_range).isOk = false) := by
  refine ⟨rfl, ?_, ?_⟩
  · rintro items rfl hbad
    exact extractWeaponClassesList_missing_field items hbad
  · intro h
    have hpre := preprocessRows_missing_field vertices z_range rows h
    rw [mkProcessGameState]
    cases hx : preprocessRows vertices z_range rows with
    | error e => rfl
    | ok df =>
      rw [hx, Except_isOk_ok] at hpre
      exact Bool.noConfusion hpre

/-- Witness for claim C7: a one-item inventory whose item lacks the
`weapon_class` field fails to extract. -/
theorem weapon_class_integrity_witness :
    (extractWeaponClasses (some [{ weapon_class := none }])).isOk = false :=
  (weapon_class_integrity (some [{ weapon_class := none }]) [] [] (0, 0)).2.1
    [{ weapon_class := none }] rfl
    ⟨{ weapon_class := none }, List.mem_singleton.mpr rfl, rfl⟩

/-- Claim C6 (counterexample): construction with a 2-vertex polygon and the
inverted z-range (5, 3) succeeds instead of aborting with a configuration
error, and a subsequent Staging-Timer call with `min_players = 0` (< 1) also
proceeds and produces a numeric result. -/
theorem construction_accepts_invalid_config_cex :
    (mkProcessGameState exRaws6 [(0, 0), (1, 1)] (5, 3)).isOk = true ∧
    (averageTimer exSt6 "Team2" "T" ["Rifle"] "BombsiteB" 0).2
      = TimerResult.val 12 := by
  constructor
  · rfl
  · have h1 : perRoundResults 0
        (timerFiltered exSt6 ["Rifle"] "Team2" "T" "BombsiteB")
        = [RoundResult.value 12] := by decide
    show aggregate (perRoundResults 0
      (timerFiltered exSt6 ["Rifle"] "Team2" "T" "BombsiteB"))
      = TimerResult.val 12
    rw [h1]
    show TimerResult.val (meanRat [12]) = TimerResult.val 12
    rw [meanRat_singleton]

/-- Claim C6 (amended): construction performs no configuration validation —
any vertex list and any z-range are accepted whenever the rows themselves are
well-formed (the only failure path is data integrity), and an inverted
z-range merely makes every row's `is_inside` false. -/
theorem construction_no_validation (rows : List RawRow)
    (vertices : List (Rat × Rat)) (z_range : Rat × Rat) :
    ((∀ raw ∈ rows, ∀ it ∈ raw.inventory.getD [],
        it.weapon_class ≠ none) →
      (mkProcessGameState rows vertices z_range).isOk = true) ∧
    (z_range.2 < z_range.1 →
      ∀ st, mkProcessGameState rows vertices z_range = Except.ok st →
        ∀ r ∈ st.df, r.is_inside = false) := by
  constructor
  · intro h
    rcases preprocessRows_all_ok vertices z_range rows h with ⟨df, hdf⟩
    rw [mkProcessGameState, hdf]
    rfl
  · intro hz st hst r hr
    rw [mkProcessGameState] at hst
    cases hx : preprocessRows vertices z_range rows with
    | error e => rw [hx] at hst; cases hst
    | ok df =>
      rw [hx] at hst
      injection hst with hst
      rw [← hst] at hr
      rcases preprocessRows_mem vertices z_range rows df hx r hr with
        ⟨raw, _, hann⟩
      rw [annotateRow_is_inside vertices z_range raw r hann]
      exact is_inside_polygon_inverted_range vertices z_range hz raw

/-- Witness for the amended claim C6: even a 1-vertex polygon with an
inverted z-range is accepted at construction time. -/
theorem construction_no_validation_witness :
    (mkProcessGameState exRaws6 [(0, 0)] (7, 2)).isOk = true :=
  (construction_no_validation exRaws6 [(0, 0)] (7, 2)).1 (by decide)
